import Mathlib

/-!
Verification of the conversation-resolution and message-synchronization core
of the crossroad two-party chat client.

Part 1 embeds the conversation resolver, the success path of
`openConversation` in `src/chat.tsx`: it queries the `conversation_members`
rows of the current user, intersects them with the other user's rows
(limited to one result), and either returns the shared conversation id or
inserts one `conversations` row plus two membership rows.

Part 2 embeds the message-thread screen of `src/chat-thread.tsx`: the
component state (`messages`, `messageText`, `loadingMessages`,
`sendingMessage`), the initial-load effect, the realtime INSERT push
handler, and `sendMessage` with its optimistic append and its success and
failure continuations.  The asynchronous callbacks are modelled as a step
relation on the component state, one step per scheduled continuation of the
single-threaded event loop.
-/

namespace Crossroad

/-! ## Conversation resolver (`openConversation` in `src/chat.tsx`) -/

/-- A row of the `conversation_members` table: `(conversation_id, user_id)`. -/
structure MemberRow where
  conversation_id : String
  user_id : String
deriving DecidableEq, Repr

/-- The backend state the resolver reads and writes: the ids of the
`conversations` table, the `conversation_members` rows in table order, and
the server-side generator for ids of newly inserted conversations. -/
structure DB where
  convs : List String
  members : List MemberRow
  nextId : Nat
deriving DecidableEq, Repr

/-- Server-assigned id of the next conversation the backend inserts. -/
def mkConvId (n : Nat) : String := "c" ++ toString n

/-- The first backend query of `openConversation`:
`from('conversation_members').select('conversation_id').eq('user_id', u)`,
mapped to its conversation ids (`memberships?.map(member => member.conversation_id)`). -/
def memberIds (db : DB) (u : String) : List String :=
  (db.members.filter (fun r => r.user_id == u)).map (·.conversation_id)

/-- The second backend query of `openConversation`, run only when the first
returned a non-empty id list (`if (conversationIds.length)`):
`.eq('user_id', other).in('conversation_id', conversationIds).limit(1)`. -/
def sharedRows (db : DB) (self other : String) : List MemberRow :=
  if (memberIds db self).isEmpty then []
  else
    (db.members.filter
      (fun r => r.user_id == other && (memberIds db self).contains r.conversation_id)).take 1

/-- The success path of `openConversation(profile)` in `src/chat.tsx`.
If the membership intersection is non-empty, navigate to the shared
conversation id without mutating the store; otherwise insert one row into
`conversations` (server-assigned id) and the two membership rows
`[(id, userId), (id, profile.id)]`, and navigate to the new id. -/
def openConversation (self other : String) (db : DB) : String × DB :=
  match sharedRows db self other with
  | r :: _ => (r.conversation_id, db)
  | [] =>
      let cid := mkConvId db.nextId
      (cid,
        { convs := db.convs ++ [cid]
          , members := db.members ++ [⟨cid, self⟩, ⟨cid, other⟩]
          , nextId := db.nextId + 1 })

/-- A conversation `c` that both `a` and `b` are members of. -/
def bothMember (db : DB) (a b : String) (c : String) : Prop :=
  (⟨c, a⟩ : MemberRow) ∈ db.members ∧ (⟨c, b⟩ : MemberRow) ∈ db.members

theorem mem_memberIds {db : DB} {u c : String} :
    c ∈ memberIds db u ↔ (⟨c, u⟩ : MemberRow) ∈ db.members := by
  unfold memberIds
  simp only [List.mem_map, List.mem_filter, beq_iff_eq]
  constructor
  · rintro ⟨r, ⟨hr, hu⟩, hc⟩
    have : r = ⟨c, u⟩ := by
      cases r
      simp_all
    simpa [this] using hr
  · intro h
    exact ⟨⟨c, u⟩, ⟨h, rfl⟩, rfl⟩

theorem mem_sharedRows {db : DB} {self other : String} {r : MemberRow}
    (h : r ∈ sharedRows db self other) :
    r ∈ db.members ∧ r.user_id = other ∧ bothMember db self other r.conversation_id := by
  unfold sharedRows at h
  by_cases he : (memberIds db self).isEmpty
  · simp [he] at h
  · simp only [he, if_false] at h
    have h' := List.mem_of_mem_take h
    simp only [List.mem_filter, Bool.and_eq_true, beq_iff_eq, List.elem_iff,
      decide_eq_true_eq] at h'
    obtain ⟨hmem, hu, hc⟩ := h'
    refine ⟨hmem, hu, mem_memberIds.mp hc, ?_⟩
    have : r = ⟨r.conversation_id, other⟩ := by
      cases r
      simp_all
    rwa [← this]

theorem sharedRows_eq_nil_iff {db : DB} {self other : String} :
    sharedRows db self other = [] ↔ ∀ c, ¬ bothMember db self other c := by
  constructor
  · intro h c hc
    obtain ⟨hs, ho⟩ := hc
    have hcs : c ∈ memberIds db self := mem_memberIds.mpr hs
    have hne : ¬ (memberIds db self).isEmpty := by
      cases hmi : memberIds db self with
      | nil => rw [hmi] at hcs; simp at hcs
      | cons x xs => simp [hmi]
    unfold sharedRows at h
    simp only [hne, if_false] at h
    rcases List.take_eq_nil_iff.mp h with h1 | h1
    · exact absurd h1 (by simp)
    · have : (⟨c, other⟩ : MemberRow) ∈ db.members.filter
          (fun r => r.user_id == other && (memberIds db self).contains r.conversation_id) := by
        refine List.mem_filter.mpr ⟨ho, ?_⟩
        simp [List.elem_iff, hcs]
      rw [h1] at this
      simp at this
  · intro h
    unfold sharedRows
    by_cases he : (memberIds db self).isEmpty
    · simp [he]
    · simp only [he, if_false]
      have : db.members.filter
          (fun r => r.user_id == other && (memberIds db self).contains r.conversation_id) = [] := by
        rw [List.filter_eq_nil_iff]
        intro r hr
        simp only [Bool.and_eq_true, beq_iff_eq, List.elem_iff, decide_eq_true_eq, not_and]
        intro hu hc
        have hself : (⟨r.conversation_id, self⟩ : MemberRow) ∈ db.members := mem_memberIds.mp hc
        have hother : (⟨r.conversation_id, other⟩ : MemberRow) ∈ db.members := by
          have : r = ⟨r.conversation_id, other⟩ := by
            cases r
            simp_all
          rwa [← this]
        exact h r.conversation_id ⟨hself, hother⟩
      rw [this]
      simp

/-- When a shared conversation exists and is unique, `openConversation`
returns it via the membership-intersection query and mutates nothing. -/
theorem openConversation_finds (A B : String) (db : DB) (c₀ : String)
    (hShared : bothMember db A B c₀)
    (hUniq : ∀ c, bothMember db A B c → c = c₀) :
    openConversation A B db = (c₀, db) := by
  cases hsr : sharedRows db A B with
  | nil => exact absurd hShared (sharedRows_eq_nil_iff.mp hsr c₀)
  | cons r rest =>
      have hr := mem_sharedRows (hsr ▸ List.mem_cons_self r rest)
      have hc : r.conversation_id = c₀ := hUniq _ hr.2.2
      unfold openConversation
      rw [hsr]
      exact congrArg (fun c => (c, db)) hc

/-- When no shared conversation exists, `openConversation` inserts one
conversation row and the two membership rows and returns the new id. -/
theorem openConversation_creates (A B : String) (db : DB)
    (hNoShared : ∀ c, ¬ bothMember db A B c) :
    openConversation A B db =
      (mkConvId db.nextId,
        { convs := db.convs ++ [mkConvId db.nextId]
          , members := db.members ++
              [⟨mkConvId db.nextId, A⟩, ⟨mkConvId db.nextId, B⟩]
          , nextId := db.nextId + 1 }) := by
  have h1 : sharedRows db A B = [] := sharedRows_eq_nil_iff.mpr hNoShared
  unfold openConversation
  rw [h1]

/-- C3: for distinct users `A` and `B` with no prior shared conversation,
`resolve(A,B)` is idempotent: the second call returns the conversation id
created by the first call, found through the membership intersection, and
creates no second conversation row and no additional membership rows (the
backend state is returned unchanged). -/
theorem openConversation_idempotent (A B : String) (db : DB)
    (hAB : A ≠ B)
    (hNoShared : ∀ c, ¬ bothMember db A B c)
    (hFresh : ∀ u, (⟨mkConvId db.nextId, u⟩ : MemberRow) ∉ db.members) :
    openConversation A B ((openConversation A B db).2) =
      ((openConversation A B db).1, (openConversation A B db).2) := by
  have h1 := openConversation_creates A B db hNoShared
  rw [h1]
  set cid := mkConvId db.nextId with hcid
  set db₁ : DB :=
    { convs := db.convs ++ [cid]
      , members := db.members ++ [⟨cid, A⟩, ⟨cid, B⟩]
      , nextId := db.nextId + 1 } with hdb₁
  have hShared : bothMember db₁ A B cid := by
    constructor <;> simp [hdb₁, bothMember]
  have split : ∀ c u : String,
      (⟨c, u⟩ : MemberRow) ∈ db₁.members ↔
        ((⟨c, u⟩ : MemberRow) ∈ db.members ∨ (c = cid ∧ u = A) ∨ (c = cid ∧ u = B)) := by
    intro c u
    simp [hdb₁, MemberRow.mk.injEq, List.mem_append]
  have hUniq : ∀ c, bothMember db₁ A B c → c = cid := by
    intro c hc
    obtain ⟨hca, hcb⟩ := hc
    have hca' := (split c A).mp hca
    have hcb' := (split c B).mp hcb
    rcases hca' with hca' | ⟨h1, _⟩ | ⟨h1, h2⟩
    · rcases hcb' with hcb' | ⟨g1, g2⟩ | ⟨g1, _⟩
      · exact absurd ⟨hca', hcb'⟩ (hNoShared c)
      · exact absurd g2.symm hAB
      · exact absurd (g1 ▸ hca') (hFresh A)
    · exact h1
    · exact absurd h2 hAB
  exact openConversation_finds A B db₁ cid hShared hUniq

/-- C4: `resolve` is commutative in its two user arguments: if at most one
conversation has both `A` and `B` as members, then `resolve(A,B)` and
`resolve(B,A)` applied to the same backend state return the same
conversation id (either the unique shared one, or the same freshly
server-assigned id when none exists). -/
theorem openConversation_comm (A B : String) (db : DB)
    (_hAB : A ≠ B)
    (hUniq : ∀ c c', bothMember db A B c → bothMember db A B c' → c = c') :
    (openConversation A B db).1 = (openConversation B A db).1 := by
  by_cases hex : ∃ c, bothMember db A B c
  · obtain ⟨c₀, hc₀⟩ := hex
    have hAB₁ := openConversation_finds A B db c₀ hc₀ (fun c hc => hUniq c c₀ hc hc₀)
    have hBA₁ := openConversation_finds B A db c₀ ⟨hc₀.2, hc₀.1⟩
      (fun c hc => hUniq c c₀ ⟨hc.2, hc.1⟩ hc₀)
    rw [hAB₁, hBA₁]
  · push_neg at hex
    have hAB₁ := openConversation_creates A B db hex
    have hBA₁ := openConversation_creates B A db (fun c hc => hex c ⟨hc.2, hc.1⟩)
    rw [hAB₁, hBA₁]

/-- Witness for C3 at a concrete input: two fresh users on an empty store. -/
theorem openConversation_idempotent_witness :
    openConversation "u1" "u2" ((openConversation "u1" "u2" (⟨[], [], 0⟩ : DB)).2) =
      ((openConversation "u1" "u2" (⟨[], [], 0⟩ : DB)).1,
        (openConversation "u1" "u2" (⟨[], [], 0⟩ : DB)).2) :=
  openConversation_idempotent "u1" "u2" ⟨[], [], 0⟩ (by decide)
    (by simp [bothMember]) (by simp)

/-- Witness for C4 at a concrete input: a store already holding the unique
conversation shared by the two users. -/
theorem openConversation_comm_witness :
    (openConversation "u1" "u2" (⟨["c0"], [⟨"c0", "u1"⟩, ⟨"c0", "u2"⟩], 1⟩ : DB)).1 =
      (openConversation "u2" "u1" (⟨["c0"], [⟨"c0", "u1"⟩, ⟨"c0", "u2"⟩], 1⟩ : DB)).1 :=
  openConversation_comm "u1" "u2" ⟨["c0"], [⟨"c0", "u1"⟩, ⟨"c0", "u2"⟩], 1⟩ (by decide)
    (by
      intro c c' hc hc'
      obtain ⟨h1, -⟩ := hc
      obtain ⟨h3, -⟩ := hc'
      simp only [List.mem_cons, List.not_mem_nil, or_false, MemberRow.mk.injEq] at h1 h3
      simp at h1 h3
      exact h1.trans h3.symm)

/-! ## Message thread (`ChatThread` in `src/chat-thread.tsx`)

The `Message` record mirrors the row type selected by the queries
(`id, created_at, sender_id, body, conversation_id`).  In the source the
`id` field is `string | number`: server rows carry a server-assigned value
while an optimistic entry carries the client string `` `temp-${Date.now()}` ``,
and all presence checks compare ids with strict equality.  `created_at` is
an ISO timestamp string ordered by the server query; it is modelled as a
number with the same ordering. -/

/-- The `string | number` identity of a message row (`Message.id`). -/
inductive MsgId where
  | str : String → MsgId
  | num : Nat → MsgId
deriving DecidableEq, Repr

/-- The client correlation token `` `temp-${Date.now()}` `` built in
`sendMessage`. -/
def tempTok (now : Nat) : MsgId := .str ("temp-" ++ toString now)

/-- Identities in the client correlation space: strings starting with
`temp-` (five characters `temp-` followed by anything).  Numbers are never
in this space. -/
def isTempId : MsgId → Bool
  | .str s => s.data.take 5 == "temp-".data
  | .num _ => false

/-- Identities in the server space.  Modelled from the spec: the database
schema is not part of the source tree; §3 of the specification fixes the
contract that server-assigned identities are disjoint from the client
correlation-token space, so a server identity is anything outside the
`temp-` string space (for instance every numeric id). -/
def isServerId (i : MsgId) : Bool := !(isTempId i)

/-- A message row as selected by `loadMessages`, the realtime payload and
the insert acknowledgment. -/
structure Message where
  id : MsgId
  created_at : Nat
  sender_id : String
  body : String
  conversation_id : String
deriving DecidableEq, Repr

/-- The values captured by the closure of one in-flight `sendMessage` call:
its `optimisticId` and the trimmed body `trimmed`. -/
structure SendCtx where
  optimisticId : MsgId
  trimmed : String
deriving DecidableEq, Repr

/-- The state of one mounted `ChatThread` component instance:
`messages`, `messageText`, `loadingMessages` are the `useState` cells;
`inflight` records the outstanding `sendMessage` continuation, if any
(`sendingMessage` is exactly its presence); `mounted` is false once the
instance has been deactivated (effect cleanups have run: the realtime
channel is removed and the load effect's `isMounted` flag is false, and
React discards state updates from late continuations). -/
structure ThreadState where
  userId : String
  conversationId : String
  messages : List Message
  messageText : String
  loadingMessages : Bool
  inflight : Option SendCtx
  mounted : Bool
deriving DecidableEq, Repr

/-- The `sendingMessage` flag: a send is outstanding. -/
def sendingMessage (s : ThreadState) : Bool := s.inflight.isSome

/-- JavaScript `String.prototype.trim()`: strip whitespace from both ends
(executable model over the character list). -/
def jsTrim (s : String) : String :=
  ⟨((s.data.dropWhile Char.isWhitespace).reverse.dropWhile Char.isWhitespace).reverse⟩

/-- State of a freshly mounted `ChatThread` (`useState` initial values). -/
def initState (uid cid : String) : ThreadState :=
  { userId := uid, conversationId := cid, messages := [], messageText := ""
    , loadingMessages := false, inflight := none, mounted := true }

/-- Typing into the composer (`onChangeText={setMessageText}`); the input is
not editable while a send is outstanding (`editable={!sendingMessage}`). -/
def typeText (t : String) (s : ThreadState) : ThreadState :=
  if s.mounted && !(sendingMessage s) then { s with messageText := t } else s

/-- Start of `loadMessages`: `setLoadingMessages(true)` before the query. -/
def loadStart (s : ThreadState) : ThreadState :=
  if s.mounted then { s with loadingMessages := true } else s

/-- Completion of `loadMessages` with data: `setMessages(data ?? [])`.
The `if (!isMounted) return` guard discards the result after cleanup. -/
def loadSuccess (rows : List Message) (s : ThreadState) : ThreadState :=
  if s.mounted then { s with messages := rows, loadingMessages := false } else s

/-- Completion of `loadMessages` with an error: the alert is shown and only
the loading flag is reset; `messages` is not touched. -/
def loadFailure (s : ThreadState) : ThreadState :=
  if s.mounted then { s with loadingMessages := false } else s

/-- The realtime INSERT handler: if some present message already has the
incoming id the previous array is returned unchanged, otherwise the new
message is appended at the end (`[...prev, newMessage]`).  After cleanup the
channel is removed, so the handler no longer runs. -/
def applyRemoteInsert (m : Message) (s : ThreadState) : ThreadState :=
  if s.mounted then
    if s.messages.any (fun x => x.id == m.id) then s
    else { s with messages := s.messages ++ [m] }
  else s

/-- The synchronous prefix of `sendMessage` (everything before the `await`):
reject an empty trimmed body, reject while a send is outstanding, otherwise
append the optimistic message, clear the input and mark the send
outstanding.  A press can only happen on a mounted screen. -/
def sendMessage (now : Nat) (s : ThreadState) : ThreadState :=
  if !s.mounted then s
  else
    let trimmed := jsTrim s.messageText
    if trimmed = "" then s
    else if sendingMessage s then s
    else
      let optimisticId := tempTok now
      let optimisticMessage : Message :=
        { id := optimisticId, created_at := now, sender_id := s.userId
          , body := trimmed, conversation_id := s.conversationId }
      { s with messages := s.messages ++ [optimisticMessage]
             , messageText := ""
             , inflight := some ⟨optimisticId, trimmed⟩ }

/-- The success continuation of `sendMessage`: replace every entry whose id
equals the captured `optimisticId` by the acknowledged row
(`prev.map(message => message.id === optimisticId ? data : message)`) and
clear the sending flag.  On an unmounted instance the `setState` calls are
discarded by React, but the continuation still completes. -/
def reconcileSendSuccess (data : Message) (s : ThreadState) : ThreadState :=
  match s.inflight with
  | none => s
  | some c =>
      if s.mounted then
        { s with
            messages := s.messages.map (fun m => if m.id = c.optimisticId then data else m)
            , inflight := none }
      else { s with inflight := none }

/-- The failure continuation of `sendMessage`: drop the entry carrying the
captured `optimisticId` (`prev.filter(message => message.id !== optimisticId)`),
restore the trimmed body to the input, and clear the sending flag. -/
def reconcileSendFailure (s : ThreadState) : ThreadState :=
  match s.inflight with
  | none => s
  | some c =>
      if s.mounted then
        { s with
            messages := s.messages.filter (fun m => !(m.id == c.optimisticId))
            , messageText := c.trimmed
            , inflight := none }
      else { s with inflight := none }

/-- Deactivation of the conversation instance: the effect cleanups run
(`supabase.removeChannel(channel)`, `isMounted = false`) and the component
is gone. -/
def unmount (s : ThreadState) : ThreadState := { s with mounted := false }

/-- Rows delivered by the backend for this conversation: a server-space id,
and the conversation filter of the query / realtime subscription. -/
def ServerMsg (cid : String) (m : Message) : Prop :=
  isServerId m.id = true ∧ m.conversation_id = cid

instance (cid : String) (m : Message) : Decidable (ServerMsg cid m) := by
  unfold ServerMsg
  infer_instance

/-- The snapshot ordering of the claim: created-at ascending. -/
def sortedByCreatedAt : List Message → Bool
  | [] => true
  | [_] => true
  | a :: b :: rest => decide (a.created_at ≤ b.created_at) && sortedByCreatedAt (b :: rest)

/-- All states one `ChatThread` instance for conversation `cid` and user
`uid` can reach, one constructor per scheduled callback of the event loop.
Backend-delivered rows satisfy the backend contract `ServerMsg`, and an
initial-load batch arrives in the server's `created_at` ascending order. -/
inductive Reachable (uid cid : String) : ThreadState → Prop where
  | init : Reachable uid cid (initState uid cid)
  | typing (t : String) {s : ThreadState} :
      Reachable uid cid s → Reachable uid cid (typeText t s)
  | loadBegin {s : ThreadState} :
      Reachable uid cid s → Reachable uid cid (loadStart s)
  | loadOk (rows : List Message) {s : ThreadState} :
      Reachable uid cid s → (∀ m ∈ rows, ServerMsg cid m) →
      sortedByCreatedAt rows = true →
      Reachable uid cid (loadSuccess rows s)
  | loadErr {s : ThreadState} :
      Reachable uid cid s → Reachable uid cid (loadFailure s)
  | push (m : Message) {s : ThreadState} :
      Reachable uid cid s → ServerMsg cid m →
      Reachable uid cid (applyRemoteInsert m s)
  | send (now : Nat) {s : ThreadState} :
      Reachable uid cid s → Reachable uid cid (sendMessage now s)
  | sendOk (data : Message) {s : ThreadState} :
      Reachable uid cid s → ServerMsg cid data →
      Reachable uid cid (reconcileSendSuccess data s)
  | sendErr {s : ThreadState} :
      Reachable uid cid s → Reachable uid cid (reconcileSendFailure s)
  | close {s : ThreadState} :
      Reachable uid cid s → Reachable uid cid (unmount s)

theorem isTempId_tempTok (n : Nat) : isTempId (tempTok n) = true := by
  show (("temp-" ++ toString n).data.take 5 == "temp-".data) = true
  rw [String.data_append]
  rw [show (5 : Nat) = "temp-".data.length from rfl, List.take_left]
  simp

theorem isServerId_tempTok (n : Nat) : isServerId (tempTok n) = false := by
  simp [isServerId, isTempId_tempTok]

/-- Number of pending (correlation-token-identified) entries in the
timeline. -/
def pendingCount (s : ThreadState) : Nat :=
  s.messages.countP (fun m => isTempId m.id)

/-- The inductive invariant of the thread state: at most one pending entry;
an outstanding send's token lies in the correlation space; and on a live
(mounted) instance every pending entry belongs to the outstanding send —
it carries its token and its trimmed body. -/
def Inv (s : ThreadState) : Prop :=
  pendingCount s ≤ 1 ∧
  (∀ c, s.inflight = some c → isTempId c.optimisticId = true) ∧
  (s.mounted = true → ∀ m ∈ s.messages, isTempId m.id = true →
      ∃ c, s.inflight = some c ∧ m.id = c.optimisticId ∧ m.body = c.trimmed)

theorem inv_initState (uid cid : String) : Inv (initState uid cid) := by
  refine ⟨by simp [pendingCount, initState], ?_, ?_⟩
  · intro c hc
    simp [initState] at hc
  · intro _ m hm
    simp [initState] at hm

theorem inv_typeText (t : String) {s : ThreadState} (h : Inv s) :
    Inv (typeText t s) := by
  unfold typeText
  split
  · exact ⟨h.1, h.2.1, h.2.2⟩
  · exact h

theorem inv_loadStart {s : ThreadState} (h : Inv s) : Inv (loadStart s) := by
  unfold loadStart
  split
  · exact ⟨h.1, h.2.1, h.2.2⟩
  · exact h

theorem inv_loadFailure {s : ThreadState} (h : Inv s) : Inv (loadFailure s) := by
  unfold loadFailure
  split
  · exact ⟨h.1, h.2.1, h.2.2⟩
  · exact h

theorem inv_unmount {s : ThreadState} (h : Inv s) : Inv (unmount s) := by
  refine ⟨h.1, h.2.1, ?_⟩
  intro hm
  simp [unmount] at hm

theorem inv_loadSuccess (cid : String) (rows : List Message) {s : ThreadState}
    (h : Inv s) (hrows : ∀ m ∈ rows, ServerMsg cid m) :
    Inv (loadSuccess rows s) := by
  unfold loadSuccess
  split
  · have hnp : ∀ m ∈ rows, isTempId m.id = false := by
      intro m hm
      have := (hrows m hm).1
      simp [isServerId] at this
      exact this
    refine ⟨?_, h.2.1, ?_⟩
    · have : rows.countP (fun m => isTempId m.id) = 0 := by
        rw [List.countP_eq_zero]
        intro a ha
        simp [hnp a ha]
      simp [pendingCount, this]
    · intro _ m hm htemp
      exact absurd htemp (by simp [hnp m hm])
  · exact h

theorem inv_applyRemoteInsert (cid : String) (m : Message) {s : ThreadState}
    (h : Inv s) (hm : ServerMsg cid m) : Inv (applyRemoteInsert m s) := by
  have hnp : isTempId m.id = false := by
    have := hm.1
    simp [isServerId] at this
    exact this
  unfold applyRemoteInsert
  split
  · split
    · exact h
    · refine ⟨?_, h.2.1, ?_⟩
      · have : pendingCount { s with messages := s.messages ++ [m] } = pendingCount s := by
          simp [pendingCount, List.countP_append, hnp]
        rw [this]
        exact h.1
      · intro hmo x hx htemp
        rcases List.mem_append.mp hx with hx | hx
        · exact h.2.2 hmo x hx htemp
        · simp at hx
          subst hx
          exact absurd htemp (by simp [hnp])
  · exact h

theorem sendMessage_not_mounted (now : Nat) {s : ThreadState}
    (h : s.mounted = false) : sendMessage now s = s := by
  unfold sendMessage
  simp [h]

theorem sendMessage_empty (now : Nat) {s : ThreadState}
    (h : jsTrim s.messageText = "") : sendMessage now s = s := by
  unfold sendMessage
  by_cases hm : s.mounted <;> simp [hm, h]

theorem sendMessage_sending (now : Nat) {s : ThreadState}
    (h : sendingMessage s = true) : sendMessage now s = s := by
  unfold sendMessage
  by_cases hm : s.mounted <;> by_cases ht : jsTrim s.messageText = "" <;> simp [hm, ht, h]

theorem sendMessage_ready (now : Nat) {s : ThreadState}
    (hm : s.mounted = true) (ht : ¬ jsTrim s.messageText = "") (hn : s.inflight = none) :
    sendMessage now s =
      { s with
          messages := s.messages ++
            [{ id := tempTok now, created_at := now, sender_id := s.userId
               , body := jsTrim s.messageText, conversation_id := s.conversationId }]
          , messageText := ""
          , inflight := some ⟨tempTok now, jsTrim s.messageText⟩ } := by
  unfold sendMessage
  simp [hm, ht, sendingMessage, hn]

theorem reconcileSendSuccess_none (data : Message) {s : ThreadState}
    (h : s.inflight = none) : reconcileSendSuccess data s = s := by
  unfold reconcileSendSuccess
  rw [h]

theorem reconcileSendSuccess_live (data : Message) {s : ThreadState} {c : SendCtx}
    (h : s.inflight = some c) (hm : s.mounted = true) :
    reconcileSendSuccess data s =
      { s with
          messages := s.messages.map (fun m => if m.id = c.optimisticId then data else m)
          , inflight := none } := by
  unfold reconcileSendSuccess
  rw [h]
  simp [hm]

theorem reconcileSendSuccess_closed (data : Message) {s : ThreadState} {c : SendCtx}
    (h : s.inflight = some c) (hm : s.mounted = false) :
    reconcileSendSuccess data s = { s with inflight := none } := by
  unfold reconcileSendSuccess
  rw [h]
  simp [hm]

theorem reconcileSendFailure_none {s : ThreadState}
    (h : s.inflight = none) : reconcileSendFailure s = s := by
  unfold reconcileSendFailure
  rw [h]

theorem reconcileSendFailure_live {s : ThreadState} {c : SendCtx}
    (h : s.inflight = some c) (hm : s.mounted = true) :
    reconcileSendFailure s =
      { s with
          messages := s.messages.filter (fun m => !(m.id == c.optimisticId))
          , messageText := c.trimmed
          , inflight := none } := by
  unfold reconcileSendFailure
  rw [h]
  simp [hm]

theorem reconcileSendFailure_closed {s : ThreadState} {c : SendCtx}
    (h : s.inflight = some c) (hm : s.mounted = false) :
    reconcileSendFailure s = { s with inflight := none } := by
  unfold reconcileSendFailure
  rw [h]
  simp [hm]

theorem inv_sendMessage (now : Nat) {s : ThreadState} (h : Inv s) :
    Inv (sendMessage now s) := by
  by_cases hm : s.mounted = true
  case neg =>
    rw [sendMessage_not_mounted now (by simpa using hm)]
    exact h
  by_cases ht : jsTrim s.messageText = ""
  · rw [sendMessage_empty now ht]
    exact h
  by_cases hn : s.inflight = none
  case neg =>
    have hsend : sendingMessage s = true := by
      simp [sendingMessage, Option.isSome_iff_ne_none, hn]
    rw [sendMessage_sending now hsend]
    exact h
  · rw [sendMessage_ready now hm ht hn]
    have hzero : s.messages.countP (fun m => isTempId m.id) = 0 := by
      rw [List.countP_eq_zero]
      intro a ha
      by_contra hne
      have htemp : isTempId a.id = true := by
        simpa using hne
      obtain ⟨c, hc, -⟩ := h.2.2 hm a ha htemp
      simp [hn] at hc
    refine ⟨?_, ?_, ?_⟩
    · show (s.messages ++ _).countP (fun m => isTempId m.id) ≤ 1
      simp [List.countP_append, hzero, List.countP_cons, isTempId_tempTok]
    · intro c hc
      simp only [Option.some.injEq] at hc
      rw [← hc]
      exact isTempId_tempTok now
    · intro _ x hx htemp
      rcases List.mem_append.mp hx with hx | hx
      · exfalso
        have := List.countP_eq_zero.mp hzero x hx
        simp [htemp] at this
      · simp only [List.mem_singleton] at hx
        subst hx
        exact ⟨⟨tempTok now, jsTrim s.messageText⟩, rfl, rfl, rfl⟩

theorem inv_reconcileSendSuccess (cid : String) (data : Message) {s : ThreadState}
    (h : Inv s) (hdata : ServerMsg cid data) : Inv (reconcileSendSuccess data s) := by
  have hnp : isTempId data.id = false := by
    have := hdata.1
    simp [isServerId] at this
    exact this
  cases hin : s.inflight with
  | none =>
      rw [reconcileSendSuccess_none data hin]
      exact h
  | some c =>
      by_cases hmo : s.mounted = true
      · rw [reconcileSendSuccess_live data hin hmo]
        refine ⟨?_, ?_, ?_⟩
        · show (s.messages.map (fun m => if m.id = c.optimisticId then data else m)).countP
            (fun m => isTempId m.id) ≤ 1
          have hle : (s.messages.map
              (fun m => if m.id = c.optimisticId then data else m)).countP
                (fun m => isTempId m.id) ≤ s.messages.countP (fun m => isTempId m.id) := by
            rw [List.countP_map]
            refine List.countP_mono_left ?_
            intro a ha hpa
            simp only [Function.comp] at hpa
            by_cases hid : a.id = c.optimisticId
            · simp [hid, hnp] at hpa
            · simpa [hid] using hpa
          exact le_trans hle h.1
        · intro c' hc'
          simp at hc'
        · intro _ x hx htemp
          exfalso
          simp only [List.mem_map] at hx
          obtain ⟨a, ha, hax⟩ := hx
          by_cases hid : a.id = c.optimisticId
          · rw [← hax] at htemp
            simp [hid, hnp] at htemp
          · have hax' : x = a := by
              rw [← hax]
              simp [hid]
            rw [hax'] at htemp
            obtain ⟨c', hc', hidc', -⟩ := h.2.2 hmo a ha htemp
            rw [hin] at hc'
            have hcc := Option.some.inj hc'
            rw [← hcc] at hidc'
            exact hid hidc'
      · have hmo' : s.mounted = false := by
          simpa using hmo
        rw [reconcileSendSuccess_closed data hin hmo']
        refine ⟨h.1, ?_, ?_⟩
        · intro c' hc'
          simp at hc'
        · intro hcontra
          simp [hmo'] at hcontra

theorem inv_reconcileSendFailure {s : ThreadState} (h : Inv s) :
    Inv (reconcileSendFailure s) := by
  cases hin : s.inflight with
  | none =>
      rw [reconcileSendFailure_none hin]
      exact h
  | some c =>
      by_cases hmo : s.mounted = true
      · rw [reconcileSendFailure_live hin hmo]
        refine ⟨?_, ?_, ?_⟩
        · show (s.messages.filter (fun m => !(m.id == c.optimisticId))).countP
            (fun m => isTempId m.id) ≤ 1
          exact le_trans ((List.filter_sublist s.messages).countP_le _) h.1
        · intro c' hc'
          simp at hc'
        · intro _ x hx htemp
          exfalso
          rw [List.mem_filter] at hx
          obtain ⟨hxm, hxne⟩ := hx
          obtain ⟨c', hc', hidc', -⟩ := h.2.2 hmo x hxm htemp
          rw [hin] at hc'
          have hcc := Option.some.inj hc'
          rw [← hcc] at hidc'
          simp [hidc'] at hxne
      · have hmo' : s.mounted = false := by
          simpa using hmo
        rw [reconcileSendFailure_closed hin hmo']
        refine ⟨h.1, ?_, ?_⟩
        · intro c' hc'
          simp at hc'
        · intro hcontra
          simp [hmo'] at hcontra

/-- Every reachable state satisfies the inductive invariant. -/
theorem reachable_inv {uid cid : String} {s : ThreadState}
    (h : Reachable uid cid s) : Inv s := by
  induction h with
  | init => exact inv_initState uid cid
  | typing t _ ih => exact inv_typeText t ih
  | loadBegin _ ih => exact inv_loadStart ih
  | loadOk rows _ hrows _ ih => exact inv_loadSuccess cid rows ih hrows
  | loadErr _ ih => exact inv_loadFailure ih
  | push m _ hm ih => exact inv_applyRemoteInsert cid m ih hm
  | send now _ ih => exact inv_sendMessage now ih
  | sendOk data _ hdata ih => exact inv_reconcileSendSuccess cid data ih hdata
  | sendErr _ ih => exact inv_reconcileSendFailure ih
  | close _ ih => exact inv_unmount ih

/-- C7: a send whose body is empty or whitespace-only after trimming has no
effect at all: no optimistic append, no outstanding insert, no state change
(`if (!trimmed) return` fires before anything else in `sendMessage`). -/
theorem sendRejectsBlankBody (now : Nat) {s : ThreadState}
    (h : jsTrim s.messageText = "") : sendMessage now s = s :=
  sendMessage_empty now h

/-- Witness for C7: a whitespace-only composer input. -/
theorem sendRejectsBlankBody_witness :
    sendMessage 5 (typeText "   " (initState "u1" "c1")) =
      typeText "   " (initState "u1" "c1") :=
  sendRejectsBlankBody 5 (by decide)

/-- C10: a failed initial load or refresh is atomic on the timeline: the
error path of `loadMessages` resets only the loading flag, so the message
list, the composer text and the outstanding-send state are exactly what
they were before the load was issued. -/
theorem loadFailureAtomic (s : ThreadState) :
    (loadFailure s).messages = s.messages ∧
    (loadFailure s).messageText = s.messageText ∧
    (loadFailure s).inflight = s.inflight := by
  unfold loadFailure
  split <;> simp

/-- C8: once the instance is closed (unmounted), no callback mutates the
timeline: the realtime channel has been removed, a load result is discarded
by the `isMounted` guard, and a late send result's state updates are
discarded (the component no longer exists), so the message list is
unchanged by every late callback. -/
theorem closedDiscardsCallbacks (m data : Message) (rows : List Message)
    {s : ThreadState} (h : s.mounted = false) :
    (applyRemoteInsert m s).messages = s.messages ∧
    (loadSuccess rows s).messages = s.messages ∧
    (loadFailure s).messages = s.messages ∧
    (reconcileSendSuccess data s).messages = s.messages ∧
    (reconcileSendFailure s).messages = s.messages := by
  refine ⟨?_, ?_, ?_, ?_, ?_⟩
  · unfold applyRemoteInsert
    simp [h]
  · unfold loadSuccess
    simp [h]
  · unfold loadFailure
    simp [h]
  · cases hin : s.inflight with
    | none => rw [reconcileSendSuccess_none data hin]
    | some c => rw [reconcileSendSuccess_closed data hin h]
  · cases hin : s.inflight with
    | none => rw [reconcileSendFailure_none hin]
    | some c => rw [reconcileSendFailure_closed hin h]

/-- Witness for C8: a freshly closed instance with a pending send. -/
theorem closedDiscardsCallbacks_witness :
    (applyRemoteInsert ⟨.num 7, 2, "u1", "hi", "c1"⟩
      (unmount (sendMessage 1 (typeText "hi" (initState "u1" "c1"))))).messages =
        (unmount (sendMessage 1 (typeText "hi" (initState "u1" "c1")))).messages ∧
    (loadSuccess [⟨.num 7, 2, "u1", "hi", "c1"⟩]
      (unmount (sendMessage 1 (typeText "hi" (initState "u1" "c1"))))).messages =
        (unmount (sendMessage 1 (typeText "hi" (initState "u1" "c1")))).messages ∧
    (loadFailure (unmount (sendMessage 1 (typeText "hi" (initState "u1" "c1"))))).messages =
        (unmount (sendMessage 1 (typeText "hi" (initState "u1" "c1")))).messages ∧
    (reconcileSendSuccess ⟨.num 7, 2, "u1", "hi", "c1"⟩
      (unmount (sendMessage 1 (typeText "hi" (initState "u1" "c1"))))).messages =
        (unmount (sendMessage 1 (typeText "hi" (initState "u1" "c1")))).messages ∧
    (reconcileSendFailure (unmount (sendMessage 1 (typeText "hi" (initState "u1" "c1"))))).messages =
        (unmount (sendMessage 1 (typeText "hi" (initState "u1" "c1")))).messages :=
  closedDiscardsCallbacks ⟨.num 7, 2, "u1", "hi", "c1"⟩ ⟨.num 7, 2, "u1", "hi", "c1"⟩
    [⟨.num 7, 2, "u1", "hi", "c1"⟩] rfl

/-- C9: every reachable timeline holds at most one pending entry; while the
sending flag is set a further `sendMessage` call is a no-op; and on a live
instance with no outstanding send there is no pending entry at all (the
flag is cleared only once the result has removed or replaced it). -/
theorem atMostOnePending (now : Nat) {uid cid : String} {s : ThreadState}
    (h : Reachable uid cid s) :
    pendingCount s ≤ 1 ∧
    (sendingMessage s = true → sendMessage now s = s) ∧
    (s.mounted = true → s.inflight = none → pendingCount s = 0) := by
  refine ⟨(reachable_inv h).1, fun hs => sendMessage_sending now hs, ?_⟩
  intro hmo hn
  rw [pendingCount, List.countP_eq_zero]
  intro a ha
  by_contra hne
  have htemp : isTempId a.id = true := by
    simpa using hne
  obtain ⟨c, hc, -⟩ := (reachable_inv h).2.2 hmo a ha htemp
  simp [hn] at hc

/-- Witness for C9: the state right after an optimistic send. -/
theorem atMostOnePending_witness :
    pendingCount (sendMessage 1 (typeText "hi" (initState "u1" "c1"))) ≤ 1 ∧
    (sendingMessage (sendMessage 1 (typeText "hi" (initState "u1" "c1"))) = true →
      sendMessage 2 (sendMessage 1 (typeText "hi" (initState "u1" "c1"))) =
        sendMessage 1 (typeText "hi" (initState "u1" "c1"))) ∧
    ((sendMessage 1 (typeText "hi" (initState "u1" "c1"))).mounted = true →
      (sendMessage 1 (typeText "hi" (initState "u1" "c1"))).inflight = none →
      pendingCount (sendMessage 1 (typeText "hi" (initState "u1" "c1"))) = 0) :=
  atMostOnePending 2 (Reachable.send 1 (Reachable.typing "hi" Reachable.init))

/-- C6: on every reachable timeline the pending identity space (`temp-`
correlation tokens) and the confirmed identity space (server ids) are
disjoint — no pending entry's id equals any confirmed entry's id — and on a
live instance the only pending identity present is the outstanding send's
own correlation token. -/
theorem identitySpacesDisjoint {uid cid : String} {s : ThreadState}
    (h : Reachable uid cid s) :
    (∀ m ∈ s.messages, ∀ m' ∈ s.messages,
      isTempId m.id = true → isServerId m'.id = true → m.id ≠ m'.id) ∧
    (s.mounted = true → ∀ m ∈ s.messages, isTempId m.id = true →
      ∃ c, s.inflight = some c ∧ m.id = c.optimisticId) := by
  constructor
  · intro m _ m' _ ht hs heq
    rw [heq] at ht
    simp [isServerId, ht] at hs
  · intro hmo m hm ht
    obtain ⟨c, hc, hid, -⟩ := (reachable_inv h).2.2 hmo m hm ht
    exact ⟨c, hc, hid⟩

/-- Witness for C6: a timeline holding one confirmed and one pending entry. -/
theorem identitySpacesDisjoint_witness :
    (∀ m ∈ (sendMessage 9 (typeText "hi" (applyRemoteInsert ⟨.num 7, 5, "u2", "yo", "c1"⟩
        (initState "u1" "c1")))).messages,
      ∀ m' ∈ (sendMessage 9 (typeText "hi" (applyRemoteInsert ⟨.num 7, 5, "u2", "yo", "c1"⟩
        (initState "u1" "c1")))).messages,
      isTempId m.id = true → isServerId m'.id = true → m.id ≠ m'.id) ∧
    ((sendMessage 9 (typeText "hi" (applyRemoteInsert ⟨.num 7, 5, "u2", "yo", "c1"⟩
        (initState "u1" "c1")))).mounted = true →
      ∀ m ∈ (sendMessage 9 (typeText "hi" (applyRemoteInsert ⟨.num 7, 5, "u2", "yo", "c1"⟩
        (initState "u1" "c1")))).messages,
      isTempId m.id = true →
      ∃ c, (sendMessage 9 (typeText "hi" (applyRemoteInsert ⟨.num 7, 5, "u2", "yo", "c1"⟩
        (initState "u1" "c1")))).inflight = some c ∧ m.id = c.optimisticId) :=
  identitySpacesDisjoint
    (Reachable.send 9 (Reachable.typing "hi"
      (Reachable.push ⟨.num 7, 5, "u2", "yo", "c1"⟩ Reachable.init ⟨rfl, rfl⟩)))

/-- C5: on a live instance with an outstanding send, the failure
continuation removes exactly the entries carrying the correlation token —
none remains, the others are kept unchanged in order — and restores the
captured trimmed body (which is the pending entry's body) to the composer
input. -/
theorem sendFailureRollback {uid cid : String} {s : ThreadState} {c : SendCtx}
    (h : Reachable uid cid s) (hmo : s.mounted = true) (hin : s.inflight = some c) :
    (∀ m ∈ (reconcileSendFailure s).messages, m.id ≠ c.optimisticId) ∧
    (reconcileSendFailure s).messages =
      s.messages.filter (fun m => !(m.id == c.optimisticId)) ∧
    (reconcileSendFailure s).messageText = c.trimmed ∧
    (∀ m ∈ s.messages, isTempId m.id = true → m.body = c.trimmed) := by
  rw [reconcileSendFailure_live hin hmo]
  refine ⟨?_, rfl, rfl, ?_⟩
  · intro m hm heq
    rw [List.mem_filter] at hm
    have hne := hm.2
    rw [heq] at hne
    simp at hne
  · intro m hm ht
    obtain ⟨c', hc', -, hbody⟩ := (reachable_inv h).2.2 hmo m hm ht
    rw [hin] at hc'
    rw [← Option.some.inj hc'] at hbody
    exact hbody

/-- Witness for C5: failing the send issued right after typing. -/
theorem sendFailureRollback_witness :
    (∀ m ∈ (reconcileSendFailure (sendMessage 1 (typeText "hi" (initState "u1" "c1")))).messages,
      m.id ≠ (⟨tempTok 1, "hi"⟩ : SendCtx).optimisticId) ∧
    (reconcileSendFailure (sendMessage 1 (typeText "hi" (initState "u1" "c1")))).messages =
      (sendMessage 1 (typeText "hi" (initState "u1" "c1"))).messages.filter
        (fun m => !(m.id == (⟨tempTok 1, "hi"⟩ : SendCtx).optimisticId)) ∧
    (reconcileSendFailure (sendMessage 1 (typeText "hi" (initState "u1" "c1")))).messageText =
      (⟨tempTok 1, "hi"⟩ : SendCtx).trimmed ∧
    (∀ m ∈ (sendMessage 1 (typeText "hi" (initState "u1" "c1"))).messages,
      isTempId m.id = true → m.body = (⟨tempTok 1, "hi"⟩ : SendCtx).trimmed) :=
  sendFailureRollback (Reachable.send 1 (Reachable.typing "hi" Reachable.init))
    rfl (by decide)

theorem applyRemoteInsert_not_mounted (m : Message) (s : ThreadState)
    (h : s.mounted = false) : applyRemoteInsert m s = s := by
  unfold applyRemoteInsert
  simp [h]

theorem applyRemoteInsert_dup (m : Message) (s : ThreadState)
    (hmo : s.mounted = true)
    (hd : s.messages.any (fun x => x.id == m.id) = true) :
    applyRemoteInsert m s = s := by
  unfold applyRemoteInsert
  simp [hmo, hd]

theorem applyRemoteInsert_append (m : Message) (s : ThreadState)
    (hmo : s.mounted = true)
    (hd : s.messages.any (fun x => x.id == m.id) = false) :
    applyRemoteInsert m s = { s with messages := s.messages ++ [m] } := by
  unfold applyRemoteInsert
  simp [hmo, hd]

/-- C1 counterexample: when the push channel delivers the confirmed row
before the send's own acknowledgment is reconciled, the success path of
`sendMessage` replaces the pending entry unconditionally and the timeline
ends with two entries carrying the confirmed id `num 7`. -/
theorem duplicateWhenPushWinsRace :
    Reachable "u1" "c1"
      (reconcileSendSuccess ⟨.num 7, 2, "u1", "hi", "c1"⟩
        (applyRemoteInsert ⟨.num 7, 2, "u1", "hi", "c1"⟩
          (sendMessage 1 (typeText "hi" (initState "u1" "c1"))))) ∧
    ((reconcileSendSuccess ⟨.num 7, 2, "u1", "hi", "c1"⟩
        (applyRemoteInsert ⟨.num 7, 2, "u1", "hi", "c1"⟩
          (sendMessage 1 (typeText "hi" (initState "u1" "c1"))))).messages.countP
      (fun x => x.id == MsgId.num 7)) = 2 :=
  ⟨Reachable.sendOk ⟨.num 7, 2, "u1", "hi", "c1"⟩
      (Reachable.push ⟨.num 7, 2, "u1", "hi", "c1"⟩
        (Reachable.send 1 (Reachable.typing "hi" Reachable.init)) ⟨rfl, rfl⟩)
      ⟨rfl, rfl⟩,
    by decide⟩

/-- C1 amended: on a live instance with an outstanding send, if the
confirmed row's id is not yet present, reconciling the acknowledgment first
and then receiving the push for the same row leaves exactly one entry with
the confirmed id — the push handler's duplicate check degrades to a no-op.
(In the reverse order the unguarded success path duplicates the row; see
the counterexample.) -/
theorem confirmThenPushExactlyOne (m : Message) {uid cid : String}
    {s : ThreadState} {c : SendCtx}
    (h : Reachable uid cid s) (hmo : s.mounted = true)
    (hin : s.inflight = some c)
    (habsent : s.messages.countP (fun x => x.id == m.id) = 0) :
    ((applyRemoteInsert m (reconcileSendSuccess m s)).messages.countP
      (fun x => x.id == m.id)) = 1 := by
  have hinv := reachable_inv h
  have htok : isTempId c.optimisticId = true := hinv.2.1 c hin
  have htokle : s.messages.countP (fun x => x.id == c.optimisticId) ≤ 1 := by
    refine le_trans (List.countP_mono_left ?_) hinv.1
    intro a _ ha
    have haid : a.id = c.optimisticId := by
      simpa using ha
    rw [haid]
    exact htok
  rw [reconcileSendSuccess_live m hin hmo]
  have hmap : ((s.messages.map
      (fun x => if x.id = c.optimisticId then m else x)).countP
        (fun x => x.id == m.id)) =
      s.messages.countP (fun x => x.id == c.optimisticId) := by
    rw [List.countP_map]
    refine List.countP_congr ?_
    intro a ha
    by_cases hid : a.id = c.optimisticId
    · simp [Function.comp, hid]
    · have hnm : (a.id == m.id) = false := by
        have hz := List.countP_eq_zero.mp habsent a ha
        simpa using hz
      simp [Function.comp, hid, hnm]
  cases hany : ((s.messages.map
      (fun x => if x.id = c.optimisticId then m else x)).any
        (fun x => x.id == m.id)) with
  | false =>
      rw [applyRemoteInsert_append m
        { s with
            messages := s.messages.map (fun x => if x.id = c.optimisticId then m else x)
            , inflight := none } hmo hany]
      show ((s.messages.map
          (fun x => if x.id = c.optimisticId then m else x)) ++ [m]).countP
            (fun x => x.id == m.id) = 1
      have hz : ((s.messages.map
          (fun x => if x.id = c.optimisticId then m else x)).countP
            (fun x => x.id == m.id)) = 0 := by
        rw [List.countP_eq_zero]
        intro a ha
        have hfa := List.any_eq_false.mp hany a ha
        simpa using hfa
      rw [List.countP_append, hz]
      simp
  | true =>
      rw [applyRemoteInsert_dup m
        { s with
            messages := s.messages.map (fun x => if x.id = c.optimisticId then m else x)
            , inflight := none } hmo hany]
      show (s.messages.map
          (fun x => if x.id = c.optimisticId then m else x)).countP
            (fun x => x.id == m.id) = 1
      obtain ⟨a, ha, hpa⟩ := List.any_eq_true.mp hany
      have hpos : 0 < (s.messages.map
          (fun x => if x.id = c.optimisticId then m else x)).countP
            (fun x => x.id == m.id) := List.countP_pos_iff.mpr ⟨a, ha, hpa⟩
      rw [hmap] at hpos
      rw [hmap]
      omega

/-- Witness for the amended C1 at a concrete input: acknowledgment
reconciled first, push second. -/
theorem confirmThenPushExactlyOne_witness :
    ((applyRemoteInsert ⟨.num 7, 2, "u1", "hi", "c1"⟩
        (reconcileSendSuccess ⟨.num 7, 2, "u1", "hi", "c1"⟩
          (sendMessage 1 (typeText "hi" (initState "u1" "c1"))))).messages.countP
      (fun x => x.id == (⟨.num 7, 2, "u1", "hi", "c1"⟩ : Message).id)) = 1 :=
  confirmThenPushExactlyOne ⟨.num 7, 2, "u1", "hi", "c1"⟩
    (Reachable.send 1 (Reachable.typing "hi" Reachable.init))
    rfl rfl (by decide)

/-- Sorted lists stay sorted when a message at least as late as every entry
is appended at the end. -/
theorem sortedByCreatedAt_append_last {l : List Message} {m : Message}
    (hs : sortedByCreatedAt l = true)
    (hb : ∀ x ∈ l, x.created_at ≤ m.created_at) :
    sortedByCreatedAt (l ++ [m]) = true := by
  induction l with
  | nil => simp [sortedByCreatedAt]
  | cons a rest ih =>
      cases rest with
      | nil =>
          show sortedByCreatedAt [a, m] = true
          simp [sortedByCreatedAt, hb a (by simp)]
      | cons b rest' =>
          have hs2 : decide (a.created_at ≤ b.created_at) = true ∧
              sortedByCreatedAt (b :: rest') = true := by
            have hs3 : (decide (a.created_at ≤ b.created_at) &&
                sortedByCreatedAt (b :: rest')) = true := hs
            exact Bool.and_eq_true _ _ ▸ hs3
          have hs' : sortedByCreatedAt (b :: rest') = true := hs2.2
          have hab : a.created_at ≤ b.created_at := by
            simpa using hs2.1
          have hb' : ∀ x ∈ b :: rest', x.created_at ≤ m.created_at := by
            intro x hx
            exact hb x (List.mem_cons_of_mem a hx)
          show sortedByCreatedAt (a :: b :: (rest' ++ [m])) = true
          unfold sortedByCreatedAt
          simp only [Bool.and_eq_true, decide_eq_true_eq]
          exact ⟨hab, ih hs' hb'⟩

/-- C2 corrected content: on a live instance the push handler never
re-sorts — it returns the list unchanged on a duplicate id and otherwise
appends the incoming row at the end.  Consequently the snapshot stays
sorted by created-at only when the appended row is at least as late as
every present entry; an initial-load batch itself is sorted (the query
orders by `created_at` ascending). -/
theorem pushAppendsAtEnd (m : Message) (rows : List Message) {s : ThreadState}
    (hmo : s.mounted = true) :
    (s.messages.any (fun x => x.id == m.id) = true → applyRemoteInsert m s = s) ∧
    (s.messages.any (fun x => x.id == m.id) = false →
      (applyRemoteInsert m s).messages = s.messages ++ [m]) ∧
    (sortedByCreatedAt s.messages = true →
      (∀ x ∈ s.messages, x.created_at ≤ m.created_at) →
      sortedByCreatedAt (applyRemoteInsert m s).messages = true) ∧
    (sortedByCreatedAt rows = true →
      sortedByCreatedAt (loadSuccess rows s).messages = true) := by
  refine ⟨fun hd => applyRemoteInsert_dup m s hmo hd,
    fun hd => by rw [applyRemoteInsert_append m s hmo hd], ?_, ?_⟩
  · intro hs hb
    by_cases hd : s.messages.any (fun x => x.id == m.id) = true
    · rw [applyRemoteInsert_dup m s hmo hd]
      exact hs
    · have hd' : s.messages.any (fun x => x.id == m.id) = false := by
        simpa using hd
      rw [applyRemoteInsert_append m s hmo hd']
      exact sortedByCreatedAt_append_last hs hb
  · intro hr
    unfold loadSuccess
    simp only [hmo, if_true]
    exact hr

/-- C2 counterexample: a push delivered out of created-at order is appended
at the end, leaving the snapshot unsorted (entry at `created_at = 10`
precedes entry at `created_at = 5`). -/
theorem timelineNotAlwaysSorted :
    Reachable "u1" "c1"
      (applyRemoteInsert ⟨.num 2, 5, "u2", "b", "c1"⟩
        (loadSuccess [⟨.num 1, 10, "u2", "a", "c1"⟩] (initState "u1" "c1"))) ∧
    sortedByCreatedAt
      (applyRemoteInsert ⟨.num 2, 5, "u2", "b", "c1"⟩
        (loadSuccess [⟨.num 1, 10, "u2", "a", "c1"⟩]
          (initState "u1" "c1"))).messages = false :=
  ⟨Reachable.push ⟨.num 2, 5, "u2", "b", "c1"⟩
      (Reachable.loadOk [⟨.num 1, 10, "u2", "a", "c1"⟩] Reachable.init
        (by decide) (by decide))
      ⟨rfl, rfl⟩,
    by decide⟩

/-- Witness for the corrected C2 at a concrete input: a loaded sorted batch
and a push arriving in created-at order. -/
theorem pushAppendsAtEnd_witness :
    ((loadSuccess [⟨.num 1, 10, "u2", "a", "c1"⟩] (initState "u1" "c1")).messages.any
        (fun x => x.id == (⟨.num 3, 12, "u2", "d", "c1"⟩ : Message).id) = true →
      applyRemoteInsert ⟨.num 3, 12, "u2", "d", "c1"⟩
          (loadSuccess [⟨.num 1, 10, "u2", "a", "c1"⟩] (initState "u1" "c1")) =
        loadSuccess [⟨.num 1, 10, "u2", "a", "c1"⟩] (initState "u1" "c1")) ∧
    ((loadSuccess [⟨.num 1, 10, "u2", "a", "c1"⟩] (initState "u1" "c1")).messages.any
        (fun x => x.id == (⟨.num 3, 12, "u2", "d", "c1"⟩ : Message).id) = false →
      (applyRemoteInsert ⟨.num 3, 12, "u2", "d", "c1"⟩
          (loadSuccess [⟨.num 1, 10, "u2", "a", "c1"⟩] (initState "u1" "c1"))).messages =
        (loadSuccess [⟨.num 1, 10, "u2", "a", "c1"⟩] (initState "u1" "c1")).messages ++
          [⟨.num 3, 12, "u2", "d", "c1"⟩]) ∧
    (sortedByCreatedAt
        (loadSuccess [⟨.num 1, 10, "u2", "a", "c1"⟩] (initState "u1" "c1")).messages = true →
      (∀ x ∈ (loadSuccess [⟨.num 1, 10, "u2", "a", "c1"⟩] (initState "u1" "c1")).messages,
        x.created_at ≤ (⟨.num 3, 12, "u2", "d", "c1"⟩ : Message).created_at) →
      sortedByCreatedAt
        (applyRemoteInsert ⟨.num 3, 12, "u2", "d", "c1"⟩
          (loadSuccess [⟨.num 1, 10, "u2", "a", "c1"⟩]
            (initState "u1" "c1"))).messages = true) ∧
    (sortedByCreatedAt [⟨.num 1, 10, "u2", "a", "c1"⟩] = true →
      sortedByCreatedAt
        (loadSuccess [⟨.num 1, 10, "u2", "a", "c1"⟩]
          (loadSuccess [⟨.num 1, 10, "u2", "a", "c1"⟩]
            (initState "u1" "c1"))).messages = true) :=
  pushAppendsAtEnd ⟨.num 3, 12, "u2", "d", "c1"⟩ [⟨.num 1, 10, "u2", "a", "c1"⟩] rfl

end Crossroad
